import Mathlib

/-
Verification of the request pipeline of the azure-cosmos-js client slice.

The development shallowly embeds the two source files under src/src/request
(request.ts, RequestHandler.ts) and the Container resource wrapper
(src/unnamed/part_000).  JavaScript objects used as string-keyed header maps
are embedded as association lists with assignment semantics (later assignment
to the same key overwrites); JavaScript truthiness is embedded explicitly per
value type; asynchronous control flow of request() is embedded as a pure
function of the per-attempt observable events (the fetch settlement, the
user-signal state at the two points where the code reads it, and whether the
internal timeout timer fired while the fetch was in flight).
-/

set_option autoImplicit false

namespace CosmosReq

/- Small string constants, bound to names so that every string literal is
passed by name rather than inline. -/

def emptyStr : String := ""

def commaStr : String := ","

def colonStr : String := ":"

def quoteStr : String := "\""

def lbrackStr : String := "["

def rbrackStr : String := "]"

def lbraceStr : String := "\x7b"

def rbraceStr : String := "\x7d"

def nullStr : String := "null"

def trueStr : String := "true"

def falseStr : String := "false"

/- Association-list model of a JavaScript object used as a string-keyed map.
`aset` is property assignment (overwrites the binding if the key is present,
appends it otherwise); `aget` is property read. -/

def aset {α : Type} : List (String × α) → String → α → List (String × α)
  | [], k, v => [(k, v)]
  | (k', v') :: t, k, v => if k' = k then (k, v) :: t else (k', v') :: aset t k v

def aget {α : Type} : List (String × α) → String → Option α
  | [], _ => none
  | (k', v') :: t, k => if k' = k then some v' else aget t k

/- Header values in CosmosHeaders are JavaScript strings, numbers or booleans.
`truthy` is JavaScript truthiness for such a value. -/

inductive HVal where
  | str (s : String)
  | num (n : Int)
  | bool (b : Bool)
deriving DecidableEq, Repr

def HVal.truthy : HVal → Bool
  | .str s => !s.isEmpty
  | .num n => n != 0
  | .bool b => b

def truthyOpt : Option HVal → Bool
  | some v => v.truthy
  | none => false

abbrev CosmosHeaders : Type := List (String × HVal)

/- JavaScript truthiness of optional (possibly absent) values of the types
appearing in RequestOptions and AuthOptions.  Objects, arrays and functions
are truthy whenever present; strings are truthy when nonempty; numbers when
nonzero; booleans when true. -/

def strTruthy : Option String → Bool
  | some s => !s.isEmpty
  | none => false

def intTruthy : Option Int → Bool
  | some n => n != 0
  | none => false

def boolTruthy : Option Bool → Bool
  | some b => b
  | none => false

/- Header-name constants from Constants.HttpHeaders and Constants.MediaTypes
(src/common/constants, referenced by request.ts).  Only distinctness of the
names is load-bearing. -/

namespace HttpHeaders

@[simp] def Authorization : String := "authorization"

@[simp] def ALLOW_MULTIPLE_WRITES : String := "x-ms-cosmos-allow-tentative-writes"

@[simp] def Continuation : String := "x-ms-continuation"

@[simp] def PreTriggerInclude : String := "x-ms-documentdb-pre-trigger-include"

@[simp] def PostTriggerInclude : String := "x-ms-documentdb-post-trigger-include"

@[simp] def OfferType : String := "x-ms-offer-type"

@[simp] def OfferThroughput : String := "x-ms-offer-throughput"

@[simp] def PageSize : String := "x-ms-max-item-count"

@[simp] def IfMatch : String := "If-Match"

@[simp] def IfNoneMatch : String := "If-None-Match"

@[simp] def A_IM : String := "A-IM"

@[simp] def IndexingDirective : String := "x-ms-indexing-directive"

@[simp] def ConsistencyLevel : String := "x-ms-consistency-level"

@[simp] def ResourceTokenExpiry : String := "x-ms-documentdb-expiry-seconds"

@[simp] def SessionToken : String := "x-ms-session-token"

@[simp] def EnableScanInQuery : String := "x-ms-documentdb-query-enable-scan"

@[simp] def EnableCrossPartitionQuery : String := "x-ms-documentdb-query-enablecrosspartition"

@[simp] def PopulateQuotaInfo : String := "x-ms-documentdb-populatequotainfo"

@[simp] def PopulateQueryMetrics : String := "x-ms-documentdb-populatequerymetrics"

@[simp] def ParallelizeCrossPartitionQuery : String := "x-ms-documentdb-query-parallelizecrosspartitionquery"

@[simp] def PartitionKey : String := "x-ms-documentdb-partitionkey"

@[simp] def PartitionKeyRangeID : String := "x-ms-documentdb-partitionkeyrangeid"

@[simp] def XDate : String := "x-ms-date"

@[simp] def ContentType : String := "Content-Type"

@[simp] def Accept : String := "Accept"

@[simp] def EnableScriptLogging : String := "x-ms-documentdb-script-enable-logging"

@[simp] def OfferIsRUPerMinuteThroughputEnabled : String := "x-ms-offer-is-ru-per-minute-throughput-enabled"

@[simp] def DisableRUPerMinuteUsage : String := "x-ms-documentdb-disable-ru-per-minute-usage"

@[simp] def ActivityId : String := "x-ms-activity-id"

@[simp] def SubStatus : String := "x-ms-substatus"

@[simp] def RetryAfterInMilliseconds : String := "x-ms-retry-after-ms"

end HttpHeaders

@[simp] def jsonMediaType : String := "application/json"

@[simp] def incrementalFeedValue : String := "Incremental Feed"

@[simp] def ifMatchType : String := "IfMatch"

/- preTriggerInclude and postTriggerInclude are string or string-array valued
(the code branches on constructor === Array). -/

inductive StrOrList where
  | str (s : String)
  | list (l : List String)
deriving DecidableEq, Repr

def solTruthy : Option StrOrList → Bool
  | some (.str s) => !s.isEmpty
  | some (.list _) => true
  | none => false

def solValue : StrOrList → String
  | .str s => s
  | .list l => String.intercalate commaStr l

/- options.partitionKey is a string, a string array, or null at runtime; the
code wraps non-array values (including null) in a singleton array. -/

inductive PKElem where
  | nullE
  | strE (s : String)
deriving DecidableEq, Repr

inductive PKVal where
  | nullV
  | strV (s : String)
  | arrV (l : List String)
deriving DecidableEq, Repr

def wrapPartitionKey : PKVal → List PKElem
  | .nullV => [PKElem.nullE]
  | .strV s => [PKElem.strE s]
  | .arrV l => l.map PKElem.strE

/- Hex digits for unicode escapes. -/

def hexDigitChar (n : Nat) : Char :=
  if n < 10 then Char.ofNat (48 + n) else Char.ofNat (87 + n)

def hex4 (n : Nat) : String :=
  String.mk [hexDigitChar (n / 4096 % 16), hexDigitChar (n / 256 % 16),
             hexDigitChar (n / 16 % 16), hexDigitChar (n % 16)]

/-- Modelled from the spec: `jsonStringifyAndEscapeNonASCII` is imported by
request.ts from `../common`, which is not under src/.  Per the spec it emits
the JSON serialization of the partition-key array with non-ASCII characters
escaped as unicode escapes. -/
def escapeNonASCIIChar (c : Char) : String :=
  if c = '"' then "\\\""
  else if c = '\\' then "\\\\"
  else if c.toNat < 32 || c.toNat > 126 then
    let pre := "\\u"
    pre ++ hex4 c.toNat
  else String.singleton c

def jsonQuoteNonASCII (s : String) : String :=
  quoteStr ++ String.join (s.toList.map escapeNonASCIIChar) ++ quoteStr

def pkElemToJson : PKElem → String
  | .nullE => nullStr
  | .strE s => jsonQuoteNonASCII s

def jsonStringifyAndEscapeNonASCII (l : List PKElem) : String :=
  lbrackStr ++ String.intercalate commaStr (l.map pkElemToJson) ++ rbrackStr

/- options.accessCondition has a type field (IfMatch or IfNoneMatch) and a
condition value. -/

structure AccessCondition where
  type : String
  condition : String
deriving DecidableEq, Repr

/- The merged RequestOptions and FeedOptions fields read by getHeaders, each
optional (absent embeds JavaScript undefined). -/

structure Opts where
  continuation : Option String := none
  preTriggerInclude : Option StrOrList := none
  postTriggerInclude : Option StrOrList := none
  offerType : Option String := none
  offerThroughput : Option Int := none
  maxItemCount : Option Int := none
  accessCondition : Option AccessCondition := none
  useIncrementalFeed : Option Bool := none
  indexingDirective : Option String := none
  consistencyLevel : Option String := none
  resourceTokenExpirySeconds : Option Int := none
  sessionToken : Option String := none
  enableScanInQuery : Option Bool := none
  enableCrossPartitionQuery : Option Bool := none
  populateQuotaInfo : Option Bool := none
  populateQueryMetrics : Option Bool := none
  maxDegreeOfParallelism : Option Int := none
  partitionKey : Option PKVal := none
  enableScriptLogging : Option Bool := none
  offerEnableRUPerMinuteThroughput : Option Bool := none
  disableRUPerMinuteUsage : Option Bool := none
deriving DecidableEq, Repr

def emptyOpts : Opts := {}

/- AuthOptions: masterKey and key are strings, resourceTokens is an object
mapping resource ids to tokens, tokenProvider is a callback (only presence is
observable here), permissionFeed is an array of permission objects. -/

structure AuthOptions where
  masterKey : Option String := none
  key : Option String := none
  resourceTokens : Option (List (String × String)) := none
  tokenProvider : Option Unit := none
  permissionFeed : Option (List String) := none
deriving DecidableEq, Repr

def emptyAuth : AuthOptions := {}

inductive HTTPMethod where
  | get
  | post
  | put
  | delete
  | head
  | patch
deriving DecidableEq, Repr

/-- Modelled from the spec: `setAuthorizationHeader` (imported by request.ts
from `../auth`, which is not under src/) computes or obtains an authorization
token from the credentials, verb, path, resource id and resource type and
inserts it as an additional header.  The computed token value is supplied
here as the `authToken` input; only the insertion is modelled. -/
def setAuthorizationHeader (authToken : String) (headers : CosmosHeaders) : CosmosHeaders :=
  aset headers HttpHeaders.Authorization (HVal.str authToken)

/-- Embedding of getHeaders (src/src/request/request.ts, lines 33-180).  Each
conditional mirrors one if-statement of the source in source order; guards
embed JavaScript truthiness of the tested expression.  `now` is the value of
new Date().toUTCString() and `authToken` the token inserted by
setAuthorizationHeader. -/
def getHeaders (authOptions : AuthOptions) (defaultHeaders : CosmosHeaders)
    (verb : HTTPMethod) (options : Opts) (partitionKeyRangeId : Option String)
    (useMultipleWriteLocations : Bool) (now : String) (authToken : String) :
    CosmosHeaders :=
  let headers : CosmosHeaders := defaultHeaders
  let opts := options
  let headers := if useMultipleWriteLocations then
      aset headers HttpHeaders.ALLOW_MULTIPLE_WRITES (HVal.bool true) else headers
  let headers := if strTruthy opts.continuation then
      aset headers HttpHeaders.Continuation (HVal.str (opts.continuation.getD emptyStr)) else headers
  let headers := if solTruthy opts.preTriggerInclude then
      aset headers HttpHeaders.PreTriggerInclude
        (HVal.str (solValue (opts.preTriggerInclude.getD (StrOrList.str emptyStr)))) else headers
  let headers := if solTruthy opts.postTriggerInclude then
      aset headers HttpHeaders.PostTriggerInclude
        (HVal.str (solValue (opts.postTriggerInclude.getD (StrOrList.str emptyStr)))) else headers
  let headers := if strTruthy opts.offerType then
      aset headers HttpHeaders.OfferType (HVal.str (opts.offerType.getD emptyStr)) else headers
  let headers := if intTruthy opts.offerThroughput then
      aset headers HttpHeaders.OfferThroughput (HVal.num (opts.offerThroughput.getD 0)) else headers
  let headers := if intTruthy opts.maxItemCount then
      aset headers HttpHeaders.PageSize (HVal.num (opts.maxItemCount.getD 0)) else headers
  let headers := if opts.accessCondition.isSome then
      (let ac := opts.accessCondition.getD ⟨emptyStr, emptyStr⟩
       if ac.type = ifMatchType then aset headers HttpHeaders.IfMatch (HVal.str ac.condition)
       else aset headers HttpHeaders.IfNoneMatch (HVal.str ac.condition)) else headers
  let headers := if boolTruthy opts.useIncrementalFeed then
      aset headers HttpHeaders.A_IM (HVal.str incrementalFeedValue) else headers
  let headers := if strTruthy opts.indexingDirective then
      aset headers HttpHeaders.IndexingDirective (HVal.str (opts.indexingDirective.getD emptyStr)) else headers
  let headers := if strTruthy opts.consistencyLevel then
      aset headers HttpHeaders.ConsistencyLevel (HVal.str (opts.consistencyLevel.getD emptyStr)) else headers
  let headers := if intTruthy opts.resourceTokenExpirySeconds then
      aset headers HttpHeaders.ResourceTokenExpiry (HVal.num (opts.resourceTokenExpirySeconds.getD 0)) else headers
  let headers := if strTruthy opts.sessionToken then
      aset headers HttpHeaders.SessionToken (HVal.str (opts.sessionToken.getD emptyStr)) else headers
  let headers := if boolTruthy opts.enableScanInQuery then
      aset headers HttpHeaders.EnableScanInQuery (HVal.bool (opts.enableScanInQuery.getD false)) else headers
  let headers := if boolTruthy opts.enableCrossPartitionQuery then
      aset headers HttpHeaders.EnableCrossPartitionQuery (HVal.bool (opts.enableCrossPartitionQuery.getD false)) else headers
  let headers := if boolTruthy opts.populateQuotaInfo then
      aset headers HttpHeaders.PopulateQuotaInfo (HVal.bool (opts.populateQuotaInfo.getD false)) else headers
  let headers := if boolTruthy opts.populateQueryMetrics then
      aset headers HttpHeaders.PopulateQueryMetrics (HVal.bool (opts.populateQueryMetrics.getD false)) else headers
  let headers := if opts.maxDegreeOfParallelism.isSome then
      aset headers HttpHeaders.ParallelizeCrossPartitionQuery (HVal.bool true) else headers
  let headers := if boolTruthy opts.populateQuotaInfo then
      aset headers HttpHeaders.PopulateQuotaInfo (HVal.bool true) else headers
  let headers := if opts.partitionKey.isSome then
      aset headers HttpHeaders.PartitionKey
        (HVal.str (jsonStringifyAndEscapeNonASCII (wrapPartitionKey (opts.partitionKey.getD PKVal.nullV)))) else headers
  let headers := if strTruthy authOptions.masterKey || strTruthy authOptions.key
      || authOptions.tokenProvider.isSome then
      aset headers HttpHeaders.XDate (HVal.str now) else headers
  let headers := if verb = HTTPMethod.post ∨ verb = HTTPMethod.put then
      (if truthyOpt (aget headers HttpHeaders.ContentType) then headers
       else aset headers HttpHeaders.ContentType (HVal.str jsonMediaType)) else headers
  let headers := if truthyOpt (aget headers HttpHeaders.Accept) then headers
      else aset headers HttpHeaders.Accept (HVal.str jsonMediaType)
  let headers := if partitionKeyRangeId.isSome then
      aset headers HttpHeaders.PartitionKeyRangeID (HVal.str (partitionKeyRangeId.getD emptyStr)) else headers
  let headers := if boolTruthy opts.enableScriptLogging then
      aset headers HttpHeaders.EnableScriptLogging (HVal.bool (opts.enableScriptLogging.getD false)) else headers
  let headers := if boolTruthy opts.offerEnableRUPerMinuteThroughput then
      aset headers HttpHeaders.OfferIsRUPerMinuteThroughputEnabled (HVal.bool true) else headers
  let headers := if boolTruthy opts.disableRUPerMinuteUsage then
      aset headers HttpHeaders.DisableRUPerMinuteUsage (HVal.bool true) else headers
  let headers := if strTruthy authOptions.masterKey || strTruthy authOptions.key
      || authOptions.resourceTokens.isSome || authOptions.tokenProvider.isSome
      || authOptions.permissionFeed.isSome then
      setAuthorizationHeader authToken headers else headers
  headers

/- Heap model for the mutation discipline of getHeaders.  The source first
allocates a fresh object holding a copy of defaultHeaders (line 44, spread)
and every subsequent property assignment, including the one performed by
setAuthorizationHeader, targets that fresh object; options is only read.  A
heap is a list of header objects indexed by position; getHeadersHeap runs
getHeaders against the object at `defaultHeadersRef`, allocating the result
as a fresh reference. -/

def getHeadersHeap (heap : List CosmosHeaders) (defaultHeadersRef : Nat)
    (authOptions : AuthOptions) (verb : HTTPMethod) (options : Opts)
    (partitionKeyRangeId : Option String) (useMultipleWriteLocations : Bool)
    (now : String) (authToken : String) : List CosmosHeaders × Nat :=
  let fresh := heap.length
  let content := getHeaders authOptions (heap.getD defaultHeadersRef []) verb options
    partitionKeyRangeId useMultipleWriteLocations now authToken
  (heap ++ [content], fresh)

/- JSON values as produced by response.json() and consumed by
JSON.stringify.  Numbers are embedded as integers (no claim depends on
floating-point formatting). -/

inductive Json where
  | null
  | bool (b : Bool)
  | num (n : Int)
  | str (s : String)
  | arr (xs : List Json)
  | obj (fields : List (String × Json))

/- JSON.stringify string escaping. -/

def jsonEscapeChar (c : Char) : String :=
  if c = '"' then "\\\""
  else if c = '\\' then "\\\\"
  else if c = '\n' then "\\n"
  else if c = '\r' then "\\r"
  else if c = '\t' then "\\t"
  else if c.toNat = 8 then "\\b"
  else if c.toNat = 12 then "\\f"
  else if c.toNat < 32 then
    let pre := "\\u"
    pre ++ hex4 c.toNat
  else String.singleton c

def jsonQuote (s : String) : String :=
  quoteStr ++ String.join (s.toList.map jsonEscapeChar) ++ quoteStr

mutual

def jsonStringify : Json → String
  | Json.null => nullStr
  | Json.bool true => trueStr
  | Json.bool false => falseStr
  | Json.num n => toString n
  | Json.str s => jsonQuote s
  | Json.arr xs => lbrackStr ++ jsonStringifyArrItems xs ++ rbrackStr
  | Json.obj fs => lbraceStr ++ jsonStringifyObjItems fs ++ rbraceStr

def jsonStringifyArrItems : List Json → String
  | [] => emptyStr
  | [x] => jsonStringify x
  | x :: y :: t => jsonStringify x ++ commaStr ++ jsonStringifyArrItems (y :: t)

def jsonStringifyObjItems : List (String × Json) → String
  | [] => emptyStr
  | [(k, v)] => jsonQuote k ++ colonStr ++ jsonStringify v
  | (k, v) :: y :: t => jsonQuote k ++ colonStr ++ jsonStringify v ++ commaStr ++ jsonStringifyObjItems (y :: t)

end

/- JavaScript parseInt(s, 10): skip leading whitespace, optional sign, then
the maximal digit prefix; NaN when no digit is found. -/

inductive JsNum where
  | nan
  | val (n : Int)
deriving DecidableEq, Repr

def parseDigits (cs : List Char) (neg : Bool) : JsNum :=
  let ds := cs.takeWhile Char.isDigit
  if ds.isEmpty then JsNum.nan
  else
    let n : Nat := ds.foldl (fun a c => a * 10 + (c.toNat - 48)) 0
    if neg then JsNum.val (-(n : Int)) else JsNum.val (n : Int)

def parseIntBase10 (s : String) : JsNum :=
  match s.trim.toList with
  | '-' :: rest => parseDigits rest true
  | '+' :: rest => parseDigits rest false
  | cs => parseDigits cs false

/- The request() transport attempt (src/src/request/request.ts, lines
182-265).  The asynchronous run is embedded as a pure function of the
observable per-attempt events:
  * hasUserSignal / userAbortedAtStart: whether a userSignal was passed and
    whether it was already aborted when request() read it at line 197;
  * userAbortedAtCatch: the value of userSignal.aborted at the line-220 read
    (reached only when the fetch rejects);
  * fetchResult: how the fetch settled — a response (with its status, raw
    header sequence, and the verdict of response.json() on its body, none
    embedding a body that is not valid JSON), or a rejection carrying a
    JavaScript error;
  * timerFired: whether the requestTimeout timer fired while the fetch was
    in flight (before it settled).
Well-formedness of such an event record (RequestWF below) captures the
JavaScript scheduling facts relating these events. -/

structure JsError where
  name : String
deriving DecidableEq, Repr

def abortErrorName : String := "AbortError"

def typeErrorName : String := "FetchError"

def activityIdSample : String := "abc-123"

def subStatusSample : String := "3200"

def retryAfterSample : String := "500"

/- A sample raw response-header sequence carrying the three optional error
headers, used by concrete witnesses. -/

def sampleErrorHeaders : List (String × String) :=
  [(HttpHeaders.ActivityId, activityIdSample), (HttpHeaders.SubStatus, subStatusSample),
   (HttpHeaders.RetryAfterInMilliseconds, retryAfterSample)]

inductive FetchOutcome where
  | response (status : Nat) (rawHeaders : List (String × String)) (jsonBody : Option Json)
  | failure (e : JsError)

/- ErrorResponse (src/src/request/ErrorResponse.ts shape as used at lines
239-256). -/

structure ErrorResponse where
  code : Nat
  body : String
  headers : List (String × String)
  activityId : Option String := none
  substatus : Option JsNum := none
  retryAfterInMilliseconds : Option JsNum := none

structure ResponseEnvelope where
  headers : List (String × String)
  result : Json
  statusCode : Nat

inductive RequestOutcome where
  | resolved (env : ResponseEnvelope)
  | rejectedErr (er : ErrorResponse)
  | thrownError (e : JsError)
  | thrownTimeout
  | thrownParseError

def isRejectedErr : RequestOutcome → Bool
  | RequestOutcome.rejectedErr _ => true
  | _ => false

def isResolvedOut : RequestOutcome → Bool
  | RequestOutcome.resolved _ => true
  | _ => false

/- The timer created by setTimeout at line 191: pending if set and neither
fired nor cleared; clearTimeout on a fired or cleared timer is a no-op. -/

inductive TimerState where
  | pending
  | cleared
  | fired
deriving DecidableEq, Repr

def clearTimeoutFn : TimerState → TimerState
  | TimerState.pending => TimerState.cleared
  | t => t

structure RequestInput where
  hasUserSignal : Bool
  userAbortedAtStart : Bool
  userAbortedAtCatch : Bool
  fetchResult : FetchOutcome
  timerFired : Bool

/- headers materialization at lines 233-236: response.headers.forEach copies
each (key, value) pair into a plain object, later pairs overwriting earlier
ones with the same key. -/

def materializeHeaders (raw : List (String × String)) : List (String × String) :=
  raw.foldl (fun m kv => aset m kv.1 kv.2) []

/- ErrorResponse construction at lines 239-256. -/

def buildErrorResponse (status : Nat) (headers : List (String × String))
    (result : Json) : ErrorResponse :=
  let base : ErrorResponse := { code := status, body := jsonStringify result, headers := headers }
  let e1 := match aget headers HttpHeaders.ActivityId with
    | some v => { base with activityId := some v }
    | none => base
  let e2 := match aget headers HttpHeaders.SubStatus with
    | some v => { e1 with substatus := some (parseIntBase10 v) }
    | none => e1
  let e3 := match aget headers HttpHeaders.RetryAfterInMilliseconds with
    | some v => { e2 with retryAfterInMilliseconds := some (parseIntBase10 v) }
    | none => e2
  e3

/- Lines 229-264: after the fetch resolves the timer is cleared, the result
is null for 204/304 and the parsed body otherwise, headers are materialized,
and the attempt rejects with an ErrorResponse for status >= 400 or resolves
otherwise.  A body that fails to parse makes the awaited response.json()
rejection propagate (no envelope of either kind); the timer was already
cleared at that point. -/

def finishRequest (status : Nat) (raw : List (String × String)) (result : Json)
    (timer : TimerState) : RequestOutcome × TimerState :=
  let headers := materializeHeaders raw
  if 400 ≤ status then
    (RequestOutcome.rejectedErr (buildErrorResponse status headers result), timer)
  else
    (RequestOutcome.resolved { headers := headers, result := result, statusCode := status }, timer)

/-- Embedding of request (src/src/request/request.ts, lines 182-265) as a
function of the per-attempt events, returning the settlement of the returned
promise together with the final state of the timeout timer. -/
def request (i : RequestInput) : RequestOutcome × TimerState :=
  let timer0 : TimerState := if i.timerFired then TimerState.fired else TimerState.pending
  match i.fetchResult with
  | FetchOutcome.failure e =>
      if e.name = abortErrorName then
        if i.hasUserSignal && i.userAbortedAtCatch then
          (RequestOutcome.thrownError e, clearTimeoutFn timer0)
        else
          (RequestOutcome.thrownTimeout, timer0)
      else
        (RequestOutcome.thrownError e, timer0)
  | FetchOutcome.response status rawHeaders jsonBody =>
      let timer1 := clearTimeoutFn timer0
      if status = 204 ∨ status = 304 then
        finishRequest status rawHeaders Json.null timer1
      else
        match jsonBody with
        | none => (RequestOutcome.thrownParseError, timer1)
        | some j => finishRequest status rawHeaders j timer1

def isAbortFailure : FetchOutcome → Bool
  | FetchOutcome.failure e => e.name == abortErrorName
  | _ => false

/- Scheduling facts tying the event record to the JavaScript semantics of
request():
  1. with no userSignal, neither aborted flag can be set;
  2. AbortSignal.aborted is monotone between the two reads;
  3. if the userSignal is already aborted at line 197 the controller is
     aborted before fetch starts, so the fetch rejects with an AbortError at
     once and the timer cannot have fired while it was in flight;
  4. an AbortError rejection can only be produced by the controller, whose
     abort() is invoked exactly by the timer callback and the userSignal
     paths. -/

def RequestWF (i : RequestInput) : Prop :=
  (i.hasUserSignal = false → i.userAbortedAtStart = false ∧ i.userAbortedAtCatch = false)
  ∧ (i.userAbortedAtStart = true → i.userAbortedAtCatch = true)
  ∧ (i.hasUserSignal = true → i.userAbortedAtStart = true →
      isAbortFailure i.fetchResult = true ∧ i.timerFired = false)
  ∧ (isAbortFailure i.fetchResult = true →
      i.timerFired = true ∨ (i.hasUserSignal = true ∧ i.userAbortedAtCatch = true))

instance (i : RequestInput) : Decidable (RequestWF i) := by
  unfold RequestWF
  infer_instance

/-- Modelled from the spec: RetryUtility.execute (src/retry/retryUtility,
called by RequestHandler.ts but not under src/) runs transport attempts in a
loop, consulting the retry strategies after each failed attempt.  Per the
spec, a user-supplied cancellation is terminal (no further retries, the
original cancellation is the surfaced error) and an internal TimeoutError is
terminal in the base design; retryability of other errors is abstracted as
the `policy` parameter, and the inputs of potential later attempts as
`rest`.  Returns the number of attempts performed and the surfaced
outcome. -/
def retryEligible (policy : RequestOutcome → Bool) : RequestOutcome → Bool
  | RequestOutcome.resolved _ => false
  | RequestOutcome.thrownTimeout => false
  | o => policy o

def executeWithRetry (policy : RequestOutcome → Bool) :
    RequestInput → List RequestInput → Nat × RequestOutcome
  | i, rest =>
    let out := (request i).1
    if i.hasUserSignal && i.userAbortedAtCatch then
      (1, out)
    else if retryEligible policy out then
      match rest with
      | [] => (1, out)
      | j :: rest2 =>
          let r := executeWithRetry policy j rest2
          (r.1 + 1, r.2)
    else
      (1, out)

/- Concrete sample values used by counterexamples and witnesses. -/

def sampleNow : String := "Thu, 01 Jan 1970 00:00:00 GMT"

def sampleToken : String := "type=master&ver=1.0&sig=abc"

def masterKeyStr : String := "bWFzdGVyS2V5"

def dbsLink : String := "dbs/a"

def dbsTok : String := "resource-token-a"

def resourceTokensOnlyAuth : AuthOptions := { resourceTokens := some [(dbsLink, dbsTok)] }

def masterKeyAuth : AuthOptions := { masterKey := some masterKeyStr }

def abcStr : String := "abc"

def sessionStr : String := "Session"

def pkAbcLit : String := "[\"abc\"]"

def mappingOpts : Opts :=
  { partitionKey := some (PKVal.strV abcStr), consistencyLevel := some sessionStr }

def emptyContentTypeHeaders : CosmosHeaders := [(HttpHeaders.ContentType, HVal.str emptyStr)]

end CosmosReq

namespace CosmosContainer

/- Embedding of the lazily-initialized sub-resource accessors of Container
(src/unnamed/part_000).  The private backing fields $items, $sprocs and
$conflicts start undefined (none); each getter constructs the sub-resource
object on first read and caches it.  Constructed objects are embedded as
fresh identifiers drawn from an allocation counter, so that value equality of
identifiers embeds JavaScript object identity, and each constructor call is
counted. -/

structure ContainerState where
  nextObjId : Nat
  itemsField : Option Nat
  sprocsField : Option Nat
  conflictsField : Option Nat
  itemsCtorCount : Nat
  sprocsCtorCount : Nat
  conflictsCtorCount : Nat
deriving DecidableEq, Repr

/- Constructor at part_000 lines 116-120: no backing field is initialized. -/

def containerInit : ContainerState :=
  { nextObjId := 0, itemsField := none, sprocsField := none, conflictsField := none,
    itemsCtorCount := 0, sprocsCtorCount := 0, conflictsCtorCount := 0 }

/- get items() (lines 44-49). -/

def itemsGet (s : ContainerState) : Nat × ContainerState :=
  match s.itemsField with
  | some r => (r, s)
  | none =>
      (s.nextObjId,
        { s with itemsField := some s.nextObjId, nextObjId := s.nextObjId + 1,
                 itemsCtorCount := s.itemsCtorCount + 1 })

/- get storedProcedures() (lines 57-62). -/

def storedProceduresGet (s : ContainerState) : Nat × ContainerState :=
  match s.sprocsField with
  | some r => (r, s)
  | none =>
      (s.nextObjId,
        { s with sprocsField := some s.nextObjId, nextObjId := s.nextObjId + 1,
                 sprocsCtorCount := s.sprocsCtorCount + 1 })

/- get conflicts() (lines 96-101). -/

def conflictsGet (s : ContainerState) : Nat × ContainerState :=
  match s.conflictsField with
  | some r => (r, s)
  | none =>
      (s.nextObjId,
        { s with conflictsField := some s.nextObjId, nextObjId := s.nextObjId + 1,
                 conflictsCtorCount := s.conflictsCtorCount + 1 })

inductive SubAccess where
  | items
  | sprocs
  | conflicts
deriving DecidableEq, Repr

def runAccess (s : ContainerState) : SubAccess → ContainerState
  | SubAccess.items => (itemsGet s).2
  | SubAccess.sprocs => (storedProceduresGet s).2
  | SubAccess.conflicts => (conflictsGet s).2

def runAccesses (s : ContainerState) : List SubAccess → ContainerState
  | [] => s
  | a :: t => runAccesses (runAccess s a) t

def ContainerInv (s : ContainerState) : Prop :=
  (s.itemsField = none → s.itemsCtorCount = 0) ∧ s.itemsCtorCount ≤ 1
  ∧ (s.sprocsField = none → s.sprocsCtorCount = 0) ∧ s.sprocsCtorCount ≤ 1
  ∧ (s.conflictsField = none → s.conflictsCtorCount = 0) ∧ s.conflictsCtorCount ≤ 1

end CosmosContainer

/-
Theorems.  Each claim of the specification review is settled by one theorem
below, preceded by helper lemmas shared between them.
-/

namespace CosmosReq

theorem aget_aset_self {α : Type} (m : List (String × α)) (k : String) (v : α) :
    aget (aset m k v) k = some v := by
  induction m with
  | nil => simp [aset, aget]
  | cons h t ih =>
    by_cases hk : h.1 = k
    · simp [aset, aget, hk]
    · simp [aset, aget, hk, ih]

theorem aget_aset_ne {α : Type} (m : List (String × α)) (k' k : String) (v : α)
    (h : k' ≠ k) : aget (aset m k' v) k = aget m k := by
  induction m with
  | nil => simp [aset, aget, h]
  | cons hd t ih =>
    by_cases hk : hd.1 = k'
    · simp [aset, aget, hk, h, Ne.symm h]
    · by_cases hk2 : hd.1 = k
      · simp [aset, aget, hk, hk2, Ne.symm h]
      · simp [aset, aget, hk, hk2, ih]

theorem aget_ite {α : Type} (p : Prop) [Decidable p] (m1 m2 : List (String × α))
    (k : String) : aget (if p then m1 else m2) k = if p then aget m1 k else aget m2 k := by
  by_cases hp : p <;> simp [hp]

theorem finishRequest_timer (status : Nat) (raw : List (String × String))
    (result : Json) (timer : TimerState) :
    (finishRequest status raw result timer).2 = timer := by
  simp only [finishRequest]
  split <;> rfl

theorem request_response_timer (us aas aac tf : Bool) (status : Nat)
    (raw : List (String × String)) (body : Option Json) :
    (request ⟨us, aas, aac, FetchOutcome.response status raw body, tf⟩).2 =
      clearTimeoutFn (if tf then TimerState.fired else TimerState.pending) := by
  by_cases h : status = 204 ∨ status = 304
  · simp [request, h, finishRequest_timer]
  · cases body with
    | none => simp [request, h]
    | some j => simp [request, h, finishRequest_timer]

theorem request_ge400_rejects (us aas aac tf : Bool) (status : Nat)
    (raw : List (String × String)) (j : Json) (h4 : 400 ≤ status) :
    (request ⟨us, aas, aac, FetchOutcome.response status raw (some j), tf⟩).1 =
      RequestOutcome.rejectedErr (buildErrorResponse status (materializeHeaders raw) j) := by
  have hns : ¬(status = 204 ∨ status = 304) := by omega
  simp [request, hns, finishRequest, h4]

/-- C1: for a transport attempt whose fetch rejects with an abort-triggered
error (error.name is AbortError), request() re-raises the original error
unchanged and cancels the timeout timer when the caller-supplied userSignal
is in the aborted state at the catch-time read, and raises a dedicated
TimeoutError otherwise; the two raised outcomes are distinct error kinds. -/
theorem request_abort_discrimination (us aas aac tf : Bool) (e : JsError)
    (hn : e.name = abortErrorName) :
    ((us && aac) = true →
        (request ⟨us, aas, aac, FetchOutcome.failure e, tf⟩).1 = RequestOutcome.thrownError e
        ∧ (request ⟨us, aas, aac, FetchOutcome.failure e, tf⟩).2 ≠ TimerState.pending)
    ∧ ((us && aac) = false →
        (request ⟨us, aas, aac, FetchOutcome.failure e, tf⟩).1 = RequestOutcome.thrownTimeout)
    ∧ RequestOutcome.thrownTimeout ≠ RequestOutcome.thrownError e := by
  refine ⟨fun h => ⟨?_, ?_⟩, fun h => ?_, by simp⟩
  · simp [request, hn, h]
  · simp only [request, hn]
    simp [h]
    cases tf <;> simp [clearTimeoutFn]
  · simp [request, hn, h]

/-- Witness for C1 at a concrete user-cancelled attempt. -/
theorem request_abort_discrimination_witness :
    (JsError.mk abortErrorName).name = abortErrorName
    ∧ (request ⟨true, true, true, FetchOutcome.failure ⟨abortErrorName⟩, false⟩).1 =
        RequestOutcome.thrownError ⟨abortErrorName⟩ :=
  ⟨rfl, ((request_abort_discrimination true true true false ⟨abortErrorName⟩ rfl).1 rfl).1⟩

/-- C2 is refuted: on a transport-level failure that is not abort-triggered
(here a network error with name FetchError, rejecting before the timer
fires), request() re-throws at line 226 without clearing the timeout timer,
so the timer is left pending on that exit path.  The input is well-formed
for the scheduling model. -/
theorem request_timer_leak_counterexample :
    RequestWF ⟨false, false, false, FetchOutcome.failure ⟨typeErrorName⟩, false⟩
    ∧ (request ⟨false, false, false, FetchOutcome.failure ⟨typeErrorName⟩, false⟩).2 =
        TimerState.pending := by
  constructor
  · decide
  · rfl

/-- C2 (amended): on every exit path of request() other than a non-abort
transport-level failure — success, HTTP error response, unparseable body,
user cancellation, and internal timeout — the timeout timer is cancelled or
has already fired before the function returns or raises; on a non-abort
transport-level failure (DNS/connection/TLS) the timer is left pending. -/
theorem request_timer_not_pending_unless_plain_transport_failure
    (us aas aac tf : Bool) (fr : FetchOutcome)
    (hwf : RequestWF ⟨us, aas, aac, fr, tf⟩)
    (habort : ∀ e : JsError, fr = FetchOutcome.failure e → e.name = abortErrorName) :
    (request ⟨us, aas, aac, fr, tf⟩).2 ≠ TimerState.pending := by
  obtain ⟨-, -, -, h4⟩ := hwf
  cases fr with
  | response status raw body =>
    rw [request_response_timer]
    cases tf <;> simp [clearTimeoutFn]
  | failure e =>
    have hn : e.name = abortErrorName := habort e rfl
    by_cases hug : (us && aac) = true
    · simp only [request, hn]
      simp [hug]
      cases tf <;> simp [clearTimeoutFn]
    · have htf : tf = true := by
        have hab : isAbortFailure (FetchOutcome.failure e) = true := by
          simp [isAbortFailure, hn]
        rcases h4 hab with h | ⟨h1, h2⟩
        · exact h
        · simp only [] at h1 h2
          exact absurd (by simp [h1, h2]) hug
      simp [request, hn, hug, htf]

/-- Witness for the amended C2 at a concrete successful attempt. -/
theorem request_timer_not_pending_witness :
    RequestWF ⟨false, false, false, FetchOutcome.response 200 [] (some Json.null), false⟩
    ∧ (request ⟨false, false, false, FetchOutcome.response 200 [] (some Json.null), false⟩).2 ≠
        TimerState.pending :=
  ⟨by decide, request_timer_not_pending_unless_plain_transport_failure false false false false
    (FetchOutcome.response 200 [] (some Json.null)) (by decide) (fun e h => nomatch h)⟩

end CosmosReq

namespace CosmosReq

/-- C3 is refuted on one point: a status-404 response whose body is not valid
JSON makes the awaited response.json() rejection propagate out of request()
(the parse happens at line 231 before the status check), so the call rejects
with the parse error and not with an ErrorEnvelope; no envelope of either
kind is produced for that attempt. -/
theorem request_unparseable_error_body_counterexample :
    (request ⟨false, false, false, FetchOutcome.response 404 [] none, false⟩).1 =
      RequestOutcome.thrownParseError
    ∧ isRejectedErr (request ⟨false, false, false, FetchOutcome.response 404 [] none, false⟩).1 = false
    ∧ isResolvedOut (request ⟨false, false, false, FetchOutcome.response 404 [] none, false⟩).1 = false :=
  ⟨rfl, rfl, rfl⟩

/-- C3 (amended): for every response received by request(), a 204 or 304
status resolves with result null without the body being parsed (the outcome
is the same for every body, parseable or not); when the body parses as JSON,
a status greater or equal 400 rejects with an ErrorEnvelope and any other
status resolves with the materialized headers, parsed result and status
code; a success envelope is never returned for a status greater or equal 400
(even when the body is unparseable); when the body fails to parse outside
204/304 the parse error propagates and no envelope is produced; and at most
one of a success envelope or an error envelope is produced per attempt. -/
theorem request_response_classification
    (us aas aac tf : Bool) (status : Nat) (raw : List (String × String)) (body : Option Json) :
    ((status = 204 ∨ status = 304) →
        (request ⟨us, aas, aac, FetchOutcome.response status raw body, tf⟩).1 =
          RequestOutcome.resolved ⟨materializeHeaders raw, Json.null, status⟩)
    ∧ (400 ≤ status → ∀ j : Json, body = some j →
        (request ⟨us, aas, aac, FetchOutcome.response status raw body, tf⟩).1 =
          RequestOutcome.rejectedErr (buildErrorResponse status (materializeHeaders raw) j))
    ∧ (400 ≤ status →
        isResolvedOut (request ⟨us, aas, aac, FetchOutcome.response status raw body, tf⟩).1 = false)
    ∧ (¬(status = 204 ∨ status = 304) → body = none →
        (request ⟨us, aas, aac, FetchOutcome.response status raw body, tf⟩).1 =
          RequestOutcome.thrownParseError)
    ∧ (¬(status = 204 ∨ status = 304) → status < 400 → ∀ j : Json, body = some j →
        (request ⟨us, aas, aac, FetchOutcome.response status raw body, tf⟩).1 =
          RequestOutcome.resolved ⟨materializeHeaders raw, j, status⟩)
    ∧ (isResolvedOut (request ⟨us, aas, aac, FetchOutcome.response status raw body, tf⟩).1 = false
        ∨ isRejectedErr (request ⟨us, aas, aac, FetchOutcome.response status raw body, tf⟩).1 = false) := by
  refine ⟨?_, ?_, ?_, ?_, ?_, ?_⟩
  · intro h
    have h4 : ¬(400 ≤ status) := by omega
    rcases h with h | h <;> simp [request, h, finishRequest, h4]
  · intro h4 j hb
    subst hb
    exact request_ge400_rejects us aas aac tf status raw j h4
  · intro h4
    have hns : ¬(status = 204 ∨ status = 304) := by omega
    cases body with
    | none => simp [request, hns, isResolvedOut]
    | some j => simp [request, hns, finishRequest, h4, isResolvedOut]
  · intro hns hb
    subst hb
    simp [request, hns]
  · intro hns hlt j hb
    subst hb
    have h4 : ¬(400 ≤ status) := by omega
    simp [request, hns, finishRequest, h4]
  · cases hq : (request ⟨us, aas, aac, FetchOutcome.response status raw body, tf⟩).1 <;>
      simp [isResolvedOut, isRejectedErr]

/-- Witness for the amended C3 at a concrete 404 attempt with a JSON body. -/
theorem request_response_classification_witness :
    (400 ≤ 404)
    ∧ (request ⟨false, false, false, FetchOutcome.response 404 [] (some Json.null), false⟩).1 =
        RequestOutcome.rejectedErr (buildErrorResponse 404 (materializeHeaders []) Json.null) :=
  ⟨by decide,
   (request_response_classification false false false false 404 [] (some Json.null)).2.1
     (by decide) Json.null rfl⟩

theorem buildErrorResponse_fields (status : Nat) (H : List (String × String)) (result : Json) :
    (buildErrorResponse status H result).code = status
    ∧ (buildErrorResponse status H result).body = jsonStringify result
    ∧ (buildErrorResponse status H result).headers = H
    ∧ (buildErrorResponse status H result).activityId = aget H HttpHeaders.ActivityId
    ∧ (buildErrorResponse status H result).substatus =
        (aget H HttpHeaders.SubStatus).map parseIntBase10
    ∧ (buildErrorResponse status H result).retryAfterInMilliseconds =
        (aget H HttpHeaders.RetryAfterInMilliseconds).map parseIntBase10 := by
  unfold buildErrorResponse
  cases hA : aget H HttpHeaders.ActivityId <;>
    cases hS : aget H HttpHeaders.SubStatus <;>
      cases hR : aget H HttpHeaders.RetryAfterInMilliseconds <;>
        simp [hA, hS, hR]

/-- C5: every rejection of request() with status greater or equal 400
carries an ErrorEnvelope holding the materialized response headers, the
parsed-then-restringified body as a string, and, exactly when the
corresponding response header is present in the materialized map, the
activity-id string as activityId, the sub-status parsed as an integer into
substatus, and the retry-after header parsed as an integer into
retryAfterInMilliseconds (absent headers leave the fields unset). -/
theorem request_error_envelope_fields
    (us aas aac tf : Bool) (status : Nat) (raw : List (String × String)) (j : Json)
    (h4 : 400 ≤ status) :
    ∃ er : ErrorResponse,
      (request ⟨us, aas, aac, FetchOutcome.response status raw (some j), tf⟩).1 =
        RequestOutcome.rejectedErr er
      ∧ er.code = status
      ∧ er.body = jsonStringify j
      ∧ er.headers = materializeHeaders raw
      ∧ er.activityId = aget (materializeHeaders raw) HttpHeaders.ActivityId
      ∧ er.substatus = (aget (materializeHeaders raw) HttpHeaders.SubStatus).map parseIntBase10
      ∧ er.retryAfterInMilliseconds =
          (aget (materializeHeaders raw) HttpHeaders.RetryAfterInMilliseconds).map parseIntBase10 :=
  ⟨buildErrorResponse status (materializeHeaders raw) j,
   request_ge400_rejects us aas aac tf status raw j h4,
   buildErrorResponse_fields status (materializeHeaders raw) j⟩

/-- Witness for C5 at a concrete 429 attempt carrying all three optional
headers. -/
theorem request_error_envelope_fields_witness :
    (400 ≤ 429)
    ∧ ∃ er : ErrorResponse,
        (request ⟨false, false, false,
            FetchOutcome.response 429 sampleErrorHeaders (some Json.null), false⟩).1 =
          RequestOutcome.rejectedErr er
        ∧ er.code = 429
        ∧ er.body = jsonStringify Json.null
        ∧ er.headers = materializeHeaders sampleErrorHeaders
        ∧ er.activityId = aget (materializeHeaders sampleErrorHeaders) HttpHeaders.ActivityId
        ∧ er.substatus =
            (aget (materializeHeaders sampleErrorHeaders) HttpHeaders.SubStatus).map parseIntBase10
        ∧ er.retryAfterInMilliseconds =
            (aget (materializeHeaders sampleErrorHeaders)
              HttpHeaders.RetryAfterInMilliseconds).map parseIntBase10 :=
  ⟨by decide,
   request_error_envelope_fields false false false false 429 sampleErrorHeaders Json.null
     (by decide)⟩

/-- C7: for every call where the caller-supplied userSignal is already
aborted before the call starts, request() fails with the original abort
error (not a TimeoutError, not a success), the timer is cleared, and the
spec-modelled retry loop performs exactly one attempt and surfaces that
error. -/
theorem request_preAborted_terminal
    (policy : RequestOutcome → Bool) (rest : List RequestInput)
    (us aas aac tf : Bool) (fr : FetchOutcome)
    (hwf : RequestWF ⟨us, aas, aac, fr, tf⟩)
    (hus : us = true) (haas : aas = true) :
    ∃ e : JsError, fr = FetchOutcome.failure e ∧ e.name = abortErrorName
      ∧ (request ⟨us, aas, aac, fr, tf⟩).1 = RequestOutcome.thrownError e
      ∧ (request ⟨us, aas, aac, fr, tf⟩).1 ≠ RequestOutcome.thrownTimeout
      ∧ isResolvedOut (request ⟨us, aas, aac, fr, tf⟩).1 = false
      ∧ (request ⟨us, aas, aac, fr, tf⟩).2 = TimerState.cleared
      ∧ executeWithRetry policy ⟨us, aas, aac, fr, tf⟩ rest = (1, RequestOutcome.thrownError e) := by
  obtain ⟨h1, h2, h3, h4⟩ := hwf
  obtain ⟨hab, htf⟩ := h3 hus haas
  have haac : aac = true := h2 haas
  simp only [] at hab htf
  cases fr with
  | response s r b => simp [isAbortFailure] at hab
  | failure e =>
    have hn : e.name = abortErrorName := by simpa [isAbortFailure] using hab
    refine ⟨e, rfl, hn, ?_, ?_, ?_, ?_, ?_⟩
    · simp [request, hn, hus, haac]
    · simp [request, hn, hus, haac]
    · simp [request, hn, hus, haac, isResolvedOut]
    · simp [request, hn, hus, haac, htf, clearTimeoutFn]
    · unfold executeWithRetry
      simp [hus, haac, request, hn]

/-- Witness for C7 at a concrete pre-aborted call. -/
theorem request_preAborted_terminal_witness :
    RequestWF ⟨true, true, true, FetchOutcome.failure ⟨abortErrorName⟩, false⟩
    ∧ ∃ e : JsError, FetchOutcome.failure ⟨abortErrorName⟩ = FetchOutcome.failure e
        ∧ e.name = abortErrorName
        ∧ (request ⟨true, true, true, FetchOutcome.failure ⟨abortErrorName⟩, false⟩).1 =
            RequestOutcome.thrownError e
        ∧ (request ⟨true, true, true, FetchOutcome.failure ⟨abortErrorName⟩, false⟩).1 ≠
            RequestOutcome.thrownTimeout
        ∧ isResolvedOut
            (request ⟨true, true, true, FetchOutcome.failure ⟨abortErrorName⟩, false⟩).1 = false
        ∧ (request ⟨true, true, true, FetchOutcome.failure ⟨abortErrorName⟩, false⟩).2 =
            TimerState.cleared
        ∧ executeWithRetry (fun _ => false)
            ⟨true, true, true, FetchOutcome.failure ⟨abortErrorName⟩, false⟩ [] =
            (1, RequestOutcome.thrownError e) :=
  ⟨by decide,
   request_preAborted_terminal (fun _ => false) [] true true true false
     (FetchOutcome.failure ⟨abortErrorName⟩) (by decide) rfl rfl⟩

end CosmosReq

namespace CosmosReq

/-- C4 is refuted: with only resourceTokens configured (a token-based
credential per the claim), the guard at request.ts line 141 (masterKey, key
or tokenProvider) is false, so no x-date header is emitted — even though the
authorization step at lines 170-178 does run for this configuration. -/
theorem getHeaders_xdate_resourceTokens_counterexample :
    resourceTokensOnlyAuth.resourceTokens.isSome = true
    ∧ aget (getHeaders resourceTokensOnlyAuth [] HTTPMethod.get emptyOpts none false
        sampleNow sampleToken) HttpHeaders.XDate = none
    ∧ aget (getHeaders resourceTokensOnlyAuth [] HTTPMethod.get emptyOpts none false
        sampleNow sampleToken) HttpHeaders.Authorization = some (HVal.str sampleToken) :=
  ⟨rfl, rfl, rfl⟩

/-- C4 (amended): when the default headers carry no x-date entry, getHeaders
emits the timestamp (x-date) header exactly when a truthy master key, a
truthy resource-scoped key, or a token-provider callback is configured in
authOptions; resourceTokens or permissionFeed alone do not add it. -/
theorem getHeaders_xdate_exactly_for_key_or_provider
    (authOptions : AuthOptions) (defaultHeaders : CosmosHeaders)
    (verb : HTTPMethod) (opts : Opts) (pkrid : Option String) (mw : Bool)
    (now tok : String) (hd : aget defaultHeaders HttpHeaders.XDate = none) :
    aget (getHeaders authOptions defaultHeaders verb opts pkrid mw now tok)
        HttpHeaders.XDate =
      (if strTruthy authOptions.masterKey || strTruthy authOptions.key
          || authOptions.tokenProvider.isSome then some (HVal.str now) else none) := by
  simp [getHeaders, setAuthorizationHeader, aget_ite, aget_aset_ne, aget_aset_self, ite_self]
    at hd ⊢
  simp [hd]

/-- Witness for the amended C4 at a master-key configuration. -/
theorem getHeaders_xdate_witness :
    aget ([] : CosmosHeaders) HttpHeaders.XDate = none
    ∧ aget (getHeaders masterKeyAuth [] HTTPMethod.get emptyOpts none false
        sampleNow sampleToken) HttpHeaders.XDate =
      (if strTruthy masterKeyAuth.masterKey || strTruthy masterKeyAuth.key
          || masterKeyAuth.tokenProvider.isSome then some (HVal.str sampleNow) else none) :=
  ⟨rfl, getHeaders_xdate_exactly_for_key_or_provider masterKeyAuth [] HTTPMethod.get
    emptyOpts none false sampleNow sampleToken rfl⟩

/-- C6: a partitionKey option equal to the string abc makes getHeaders emit
the partition-key header as the JSON-escaped singleton array; a
consistencyLevel option equal to Session makes it emit the
consistency-level header with value Session; and with empty options neither
header is emitted (given default headers that do not already carry them). -/
theorem getHeaders_option_header_mapping
    (authOptions : AuthOptions) (defaultHeaders : CosmosHeaders)
    (verb : HTTPMethod) (opts : Opts) (pkrid : Option String) (mw : Bool)
    (now tok : String) :
    (opts.partitionKey = some (PKVal.strV abcStr) →
        aget (getHeaders authOptions defaultHeaders verb opts pkrid mw now tok)
          HttpHeaders.PartitionKey = some (HVal.str pkAbcLit))
    ∧ (opts.consistencyLevel = some sessionStr →
        aget (getHeaders authOptions defaultHeaders verb opts pkrid mw now tok)
          HttpHeaders.ConsistencyLevel = some (HVal.str sessionStr))
    ∧ (aget defaultHeaders HttpHeaders.PartitionKey = none →
        aget (getHeaders authOptions defaultHeaders verb emptyOpts pkrid mw now tok)
          HttpHeaders.PartitionKey = none)
    ∧ (aget defaultHeaders HttpHeaders.ConsistencyLevel = none →
        aget (getHeaders authOptions defaultHeaders verb emptyOpts pkrid mw now tok)
          HttpHeaders.ConsistencyLevel = none) := by
  refine ⟨fun h => ?_, fun h => ?_, fun h => ?_, fun h => ?_⟩
  · simp [getHeaders, setAuthorizationHeader, aget_ite, aget_aset_ne, aget_aset_self,
      ite_self, h, pkAbcLit, abcStr]
    rfl
  · have hT : strTruthy (some sessionStr) = true := by decide
    simp [getHeaders, setAuthorizationHeader, aget_ite, aget_aset_ne, aget_aset_self,
      ite_self, h, hT]
  · simp [getHeaders, setAuthorizationHeader, aget_ite, aget_aset_ne, aget_aset_self,
      ite_self, emptyOpts, strTruthy, intTruthy, boolTruthy, solTruthy] at h ⊢
    simp [h]
  · simp [getHeaders, setAuthorizationHeader, aget_ite, aget_aset_ne, aget_aset_self,
      ite_self, emptyOpts, strTruthy, intTruthy, boolTruthy, solTruthy] at h ⊢
    simp [h]

/-- Witness for C6 at the concrete options object of the specification. -/
theorem getHeaders_option_header_mapping_witness :
    mappingOpts.partitionKey = some (PKVal.strV abcStr)
    ∧ mappingOpts.consistencyLevel = some sessionStr
    ∧ aget ([] : CosmosHeaders) HttpHeaders.PartitionKey = none
    ∧ aget (getHeaders emptyAuth [] HTTPMethod.get mappingOpts none false
        sampleNow sampleToken) HttpHeaders.PartitionKey = some (HVal.str pkAbcLit)
    ∧ aget (getHeaders emptyAuth [] HTTPMethod.get mappingOpts none false
        sampleNow sampleToken) HttpHeaders.ConsistencyLevel = some (HVal.str sessionStr)
    ∧ aget (getHeaders emptyAuth [] HTTPMethod.get emptyOpts none false
        sampleNow sampleToken) HttpHeaders.PartitionKey = none :=
  ⟨rfl, rfl, rfl,
   (getHeaders_option_header_mapping emptyAuth [] HTTPMethod.get mappingOpts none false
     sampleNow sampleToken).1 rfl,
   (getHeaders_option_header_mapping emptyAuth [] HTTPMethod.get mappingOpts none false
     sampleNow sampleToken).2.1 rfl,
   (getHeaders_option_header_mapping emptyAuth [] HTTPMethod.get mappingOpts none false
     sampleNow sampleToken).2.2.1 rfl⟩

/-- C8 is refuted on one point: a Content-Type entry that is present in
defaultHeaders but falsy (the empty string) is overwritten with the JSON
media type for a POST, because the guard at request.ts line 146 tests
truthiness, not presence; so an explicitly supplied (but falsy) Content-Type
is not preserved. -/
theorem getHeaders_contentType_overwrite_counterexample :
    aget emptyContentTypeHeaders HttpHeaders.ContentType = some (HVal.str emptyStr)
    ∧ aget (getHeaders emptyAuth emptyContentTypeHeaders HTTPMethod.post emptyOpts none false
        sampleNow sampleToken) HttpHeaders.ContentType = some (HVal.str jsonMediaType)
    ∧ HVal.str jsonMediaType ≠ HVal.str emptyStr :=
  ⟨rfl, rfl, by decide⟩

/-- C8 (amended): the returned headers always contain a truthy Accept header
for every verb; Accept is defaulted to the JSON media type exactly when the
default headers carry no truthy Accept, and for POST and PUT the
Content-Type is defaulted to the JSON media type exactly when the default
headers carry no truthy Content-Type; a truthy supplied Accept or
Content-Type is never overwritten, while a falsy supplied value is replaced
by the default; other verbs leave the Content-Type untouched. -/
theorem getHeaders_accept_contentType_defaults
    (authOptions : AuthOptions) (defaultHeaders : CosmosHeaders)
    (verb : HTTPMethod) (opts : Opts) (pkrid : Option String) (mw : Bool)
    (now tok : String) :
    truthyOpt (aget (getHeaders authOptions defaultHeaders verb opts pkrid mw now tok)
        HttpHeaders.Accept) = true
    ∧ (truthyOpt (aget defaultHeaders HttpHeaders.Accept) = true →
        aget (getHeaders authOptions defaultHeaders verb opts pkrid mw now tok)
          HttpHeaders.Accept = aget defaultHeaders HttpHeaders.Accept)
    ∧ (truthyOpt (aget defaultHeaders HttpHeaders.Accept) = false →
        aget (getHeaders authOptions defaultHeaders verb opts pkrid mw now tok)
          HttpHeaders.Accept = some (HVal.str jsonMediaType))
    ∧ ((verb = HTTPMethod.post ∨ verb = HTTPMethod.put) →
        truthyOpt (aget defaultHeaders HttpHeaders.ContentType) = true →
        aget (getHeaders authOptions defaultHeaders verb opts pkrid mw now tok)
          HttpHeaders.ContentType = aget defaultHeaders HttpHeaders.ContentType)
    ∧ ((verb = HTTPMethod.post ∨ verb = HTTPMethod.put) →
        truthyOpt (aget defaultHeaders HttpHeaders.ContentType) = false →
        aget (getHeaders authOptions defaultHeaders verb opts pkrid mw now tok)
          HttpHeaders.ContentType = some (HVal.str jsonMediaType))
    ∧ (¬(verb = HTTPMethod.post ∨ verb = HTTPMethod.put) →
        aget (getHeaders authOptions defaultHeaders verb opts pkrid mw now tok)
          HttpHeaders.ContentType = aget defaultHeaders HttpHeaders.ContentType) := by
  refine ⟨?_, fun h => ?_, fun h => ?_, fun hv h => ?_, fun hv h => ?_, fun hv => ?_⟩
  · simp [getHeaders, setAuthorizationHeader, aget_ite, aget_aset_ne, aget_aset_self, ite_self]
    by_cases h : truthyOpt (aget defaultHeaders HttpHeaders.Accept) = true
    · simp only [HttpHeaders.Accept] at h
      simp [h]
    · have h2 : truthyOpt (aget defaultHeaders HttpHeaders.Accept) = false := by
        cases hx : truthyOpt (aget defaultHeaders HttpHeaders.Accept)
        · rfl
        · exact absurd hx h
      simp only [HttpHeaders.Accept] at h2
      simp [h2]
      decide
  · simp [getHeaders, setAuthorizationHeader, aget_ite, aget_aset_ne, aget_aset_self,
      ite_self] at h ⊢
    simp [h]
  · simp [getHeaders, setAuthorizationHeader, aget_ite, aget_aset_ne, aget_aset_self,
      ite_self] at h ⊢
    simp [h]
  · simp [getHeaders, setAuthorizationHeader, aget_ite, aget_aset_ne, aget_aset_self,
      ite_self, hv] at h ⊢
    simp [h]
  · simp [getHeaders, setAuthorizationHeader, aget_ite, aget_aset_ne, aget_aset_self,
      ite_self, hv] at h ⊢
    simp [h]
  · simp [getHeaders, setAuthorizationHeader, aget_ite, aget_aset_ne, aget_aset_self,
      ite_self, hv]

/-- Witness for the amended C8 at a POST with empty default headers. -/
theorem getHeaders_accept_contentType_defaults_witness :
    (HTTPMethod.post = HTTPMethod.post ∨ HTTPMethod.post = HTTPMethod.put)
    ∧ truthyOpt (aget ([] : CosmosHeaders) HttpHeaders.ContentType) = false
    ∧ aget (getHeaders emptyAuth [] HTTPMethod.post emptyOpts none false
        sampleNow sampleToken) HttpHeaders.ContentType = some (HVal.str jsonMediaType) :=
  ⟨Or.inl rfl, rfl,
   (getHeaders_accept_contentType_defaults emptyAuth [] HTTPMethod.post emptyOpts none false
     sampleNow sampleToken).2.2.2.2.1 (Or.inl rfl) rfl⟩

end CosmosReq

namespace CosmosReq

theorem listGetAppendLeft {α : Type} (l1 l2 : List α) (n : Nat) (h : n < l1.length) :
    (l1 ++ l2).get? n = l1.get? n := by
  induction l1 generalizing n with
  | nil => exact absurd h (by simp)
  | cons a t ih =>
    cases n with
    | zero => rfl
    | succ m => simpa using ih m (by simp at h; omega)

theorem listGetAppendLength {α : Type} (l1 : List α) (a : α) :
    (l1 ++ [a]).get? l1.length = some a := by
  induction l1 with
  | nil => rfl
  | cons b t ih => exact ih

/-- C9: getHeaders never mutates caller-owned state.  In the heap model the
source allocates a fresh object holding a copy of defaultHeaders (line 44)
and every assignment, including the authorization-header insertion, targets
that fresh object; options is only ever read.  Hence every pre-existing heap
reference (the defaultHeaders object, an options object, or any other
caller-owned object) is unchanged, and the returned reference is a fresh one
distinct from the defaultHeaders reference, holding the computed headers. -/
theorem getHeaders_no_caller_mutation
    (heap : List CosmosHeaders) (dRef : Nat) (authOptions : AuthOptions)
    (verb : HTTPMethod) (opts : Opts) (pkrid : Option String) (mw : Bool)
    (now tok : String) (hd : dRef < heap.length) :
    (forall j : Nat, j < heap.length →
        (getHeadersHeap heap dRef authOptions verb opts pkrid mw now tok).1.get? j =
          heap.get? j)
    ∧ (getHeadersHeap heap dRef authOptions verb opts pkrid mw now tok).2 ≠ dRef
    ∧ (getHeadersHeap heap dRef authOptions verb opts pkrid mw now tok).1.get?
        (getHeadersHeap heap dRef authOptions verb opts pkrid mw now tok).2 =
      some (getHeaders authOptions (heap.getD dRef []) verb opts pkrid mw now tok) := by
  refine ⟨fun j hj => ?_, ?_, ?_⟩
  · exact listGetAppendLeft heap _ j hj
  · simp only [getHeadersHeap]
    omega
  · exact listGetAppendLength heap _

/-- Witness for C9 at a one-object heap. -/
theorem getHeaders_no_caller_mutation_witness :
    (0 < ([([] : CosmosHeaders)]).length)
    ∧ (getHeadersHeap [([] : CosmosHeaders)] 0 emptyAuth HTTPMethod.get emptyOpts none false
        sampleNow sampleToken).2 ≠ 0 :=
  ⟨by decide,
   (getHeaders_no_caller_mutation [([] : CosmosHeaders)] 0 emptyAuth HTTPMethod.get emptyOpts
     none false sampleNow sampleToken (by decide)).2.1⟩

end CosmosReq

namespace CosmosContainer

theorem runAccess_preserves_inv (s : ContainerState) (a : SubAccess)
    (h : ContainerInv s) : ContainerInv (runAccess s a) := by
  obtain ⟨h1, h2, h3, h4, h5, h6⟩ := h
  cases a with
  | items =>
    unfold runAccess itemsGet
    cases hf : s.itemsField with
    | some r => exact ⟨h1, h2, h3, h4, h5, h6⟩
    | none =>
      refine ⟨by simp, ?_, h3, h4, h5, h6⟩
      simp [h1 hf]
  | sprocs =>
    unfold runAccess storedProceduresGet
    cases hf : s.sprocsField with
    | some r => exact ⟨h1, h2, h3, h4, h5, h6⟩
    | none =>
      refine ⟨h1, h2, by simp, ?_, h5, h6⟩
      simp [h3 hf]
  | conflicts =>
    unfold runAccess conflictsGet
    cases hf : s.conflictsField with
    | some r => exact ⟨h1, h2, h3, h4, h5, h6⟩
    | none =>
      refine ⟨h1, h2, h3, h4, by simp, ?_⟩
      simp [h5 hf]

theorem runAccesses_preserves_inv (s : ContainerState) (l : List SubAccess)
    (h : ContainerInv s) : ContainerInv (runAccesses s l) := by
  induction l generalizing s with
  | nil => exact h
  | cons a t ih => exact ih (runAccess s a) (runAccess_preserves_inv s a h)

/-- C10: the lazily-initialized sub-resource accessors of Container are
idempotent: reading items, storedProcedures or conflicts a second time
returns the identical cached object and leaves the container unchanged, and
starting from a freshly constructed Container, any sequence of accessor
reads constructs each underlying sub-resource object at most once. -/
theorem container_lazy_accessors_idempotent :
    (forall s : ContainerState,
        itemsGet (itemsGet s).2 = ((itemsGet s).1, (itemsGet s).2)
      ∧ storedProceduresGet (storedProceduresGet s).2 =
          ((storedProceduresGet s).1, (storedProceduresGet s).2)
      ∧ conflictsGet (conflictsGet s).2 = ((conflictsGet s).1, (conflictsGet s).2))
    ∧ (forall l : List SubAccess,
        (runAccesses containerInit l).itemsCtorCount ≤ 1
      ∧ (runAccesses containerInit l).sprocsCtorCount ≤ 1
      ∧ (runAccesses containerInit l).conflictsCtorCount ≤ 1) := by
  constructor
  · intro s
    refine ⟨?_, ?_, ?_⟩
    · cases hf : s.itemsField <;> simp [itemsGet, hf]
    · cases hf : s.sprocsField <;> simp [storedProceduresGet, hf]
    · cases hf : s.conflictsField <;> simp [conflictsGet, hf]
  · intro l
    have h := runAccesses_preserves_inv containerInit l
      (by simp [ContainerInv, containerInit])
    exact ⟨h.2.1, h.2.2.2.1, h.2.2.2.2.2⟩

end CosmosContainer
